import Mathlib

/-!
Verification development for the FHIR Lab Test Catalog service.

The development shallowly embeds the parts of the source that the checked
properties speak about:

* `app/models/fhir_models.py` — the typed resource records (pydantic models).
  Datetimes are modelled as `Nat` timestamps; the inert `Dict[str, Any]`
  payload fields (reference ranges, critical values, precision, accuracy,
  turnaround time, cost, ordering information) are modelled as opaque
  association lists (`JsonObj`), since no rule of the program reads into them.
* `app/core/database.py` — the persistence gateway.  The three tables are
  lists inside a `DB` record; SQL `LIKE '%p%'` is modelled as ASCII
  case-insensitive containment (SQLite's default collation for `LIKE`);
  a Python exception is modelled by `none`, paired with the state the
  database holds at the point the exception is raised.
* `app/services/fhir_service.py` — conversion between the resource and the
  row shape, and the validation routine.

Python truthiness conventions that the source relies on are made explicit:
`None` and `""` and `[]` are falsy, and a pydantic `BaseModel` instance is
always truthy.
-/

namespace FHIRLab

/-- Publication status: the closed enumeration draft | active | retired |
unknown (`PublicationStatus` in `app/models/fhir_models.py`). -/
inductive PublicationStatus where
  | draft
  | active
  | retired
  | unknown
deriving DecidableEq

/-- The string value of a `PublicationStatus` (the value of the str-mixin
enum member in the source). -/
def statusStr : PublicationStatus → String
  | .draft => "draft"
  | .active => "active"
  | .retired => "retired"
  | .unknown => "unknown"

/-- `PublicationStatus(s)`: constructing the enum from a string.  `none`
models the `ValueError` raised for a string outside the enumeration. -/
def statusFromStr (s : String) : Option PublicationStatus :=
  if s = "draft" then some .draft
  else if s = "active" then some .active
  else if s = "retired" then some .retired
  else if s = "unknown" then some .unknown
  else none

/-- FHIR `Coding` datatype (all fields optional in the source). -/
structure Coding where
  system : Option String
  version : Option String
  code : Option String
  display : Option String
  user_selected : Option Bool
deriving DecidableEq

/-- FHIR `CodeableConcept` datatype. -/
structure CodeableConcept where
  coding : Option (List Coding)
  text : Option String
deriving DecidableEq

/-- Opaque JSON-object payload (`Dict[str, Any]` fields that every rule of
the program passes through without reading). -/
abbrev JsonObj := List (String × String)

/-- FHIR `ObservationDefinition` resource.  `status` and `code` are required
by the pydantic model; the remaining fields shown are the optional content
fields; further inert optional payload fields of the source model behave
exactly like the ones listed (stored and returned untouched). -/
structure ObservationDefinition where
  id : Option String
  version : Option String
  name : Option String
  title : Option String
  status : PublicationStatus
  description : Option String
  category : Option (List CodeableConcept)
  code : CodeableConcept
  permitted_data_type : Option (List String)
  multiple_results_allowed : Option Bool
  method : Option CodeableConcept
  preferred_report_name : Option String
deriving DecidableEq

/-- FHIR `SpecimenDefinition` resource (same conventions as
`ObservationDefinition`). -/
structure SpecimenDefinition where
  id : Option String
  version : Option String
  name : Option String
  title : Option String
  status : PublicationStatus
  description : Option String
  type_collected : Option CodeableConcept
  patient_preparation : Option (List String)
  time_aspect : Option String
  collection : Option (List CodeableConcept)
deriving DecidableEq

/-- `LabTestDefinition`: the aggregate root.  Field-for-field image of the
pydantic model; datetimes are `Nat` timestamps. -/
structure LabTestDefinition where
  id : String
  name : String
  code : CodeableConcept
  status : PublicationStatus
  version : String
  category : List CodeableConcept
  description : String
  clinical_purpose : Option String
  observation_definition : ObservationDefinition
  specimen_definition : Option SpecimenDefinition
  reference_ranges : Option (List JsonObj)
  critical_values : Option JsonObj
  analytical_method : Option String
  precision : Option JsonObj
  accuracy : Option JsonObj
  turnaround_time : Option JsonObj
  cost : Option JsonObj
  ordering_information : Option JsonObj
  created_date : Nat
  modified_date : Nat
  created_by : Option String
deriving DecidableEq

/-- One row of the `lab_test_definitions` table.  JSON columns hold the
structured value that was serialized into them (SQLAlchemy JSON columns
return the parsed structure); nullable columns are `Option`. -/
structure Row where
  id : String
  name : String
  version : String
  status : String
  description : String
  clinical_purpose : Option String
  created_by : Option String
  code : Option CodeableConcept
  category : Option (List CodeableConcept)
  observation_definition : Option ObservationDefinition
  specimen_definition : Option SpecimenDefinition
  reference_ranges : Option (List JsonObj)
  critical_values : Option JsonObj
  precision : Option JsonObj
  accuracy : Option JsonObj
  turnaround_time : Option JsonObj
  cost : Option JsonObj
  ordering_information : Option JsonObj
  analytical_method : Option String
  created_date : Nat
  modified_date : Nat
  search_text : Option String
deriving DecidableEq

/-- One row of the `search_index` table. -/
structure IndexEntry where
  test_id : String
  search_type : String
  search_value : String
  display_value : Option String
deriving DecidableEq

/-- One row of the append-only `audit_log` table.  `changes` records the
names of the changed top-level fields for updates (the source also stores
the old/new values; no checked property reads them, so they are elided). -/
structure AuditEntry where
  action : String
  resource_type : String
  resource_id : String
  user_id : Option String
  changes : Option (List String)
  ip_address : Option String
deriving DecidableEq

/-- The persistent state: primary table, derived search index, audit log. -/
structure DB where
  tests : List Row
  index : List IndexEntry
  audit : List AuditEntry
deriving DecidableEq

/-- Pydantic re-validation of a stored coding dict, as
`CodeableConcept(**d)` performs it on nested codings: `.dict()` emits
field-name keys, while validation (no `populate_by_name`, extra keys
ignored) accepts the aliased field only under its alias `userSelected`, so
the stored `user_selected` key is dropped and the field defaults to
null.  The unaliased fields pass through. -/
def reconstructCoding (c : Coding) : Coding :=
  { system := c.system
    version := c.version
    code := c.code
    display := c.display
    user_selected := none }

/-- Pydantic re-validation of a stored CodeableConcept dict: its own two
fields carry no alias and pass through; each nested coding is re-validated
and loses `user_selected`. -/
def reconstructCC (cc : CodeableConcept) : CodeableConcept :=
  { coding := cc.coding.map (fun cs => cs.map reconstructCoding)
    text := cc.text }

/-- Pydantic re-validation of a stored ObservationDefinition dict
(`ObservationDefinition(**d)`): the alias-declared fields
`permitted_data_type` (`permittedDataType`), `multiple_results_allowed`
(`multipleResultsAllowed`) and `preferred_report_name`
(`preferredReportName`) are stored under field-name keys that validation
does not accept, so they drop to null; nested codeable concepts lose their
codings' `user_selected`. -/
def reconstructObs (od : ObservationDefinition) : ObservationDefinition :=
  { id := od.id
    version := od.version
    name := od.name
    title := od.title
    status := od.status
    description := od.description
    category := od.category.map (fun cs => cs.map reconstructCC)
    code := reconstructCC od.code
    permitted_data_type := none
    multiple_results_allowed := none
    method := od.method.map reconstructCC
    preferred_report_name := none }

/-- Pydantic re-validation of a stored SpecimenDefinition dict: the
alias-declared `type_collected` (`typeCollected`), `patient_preparation`
(`patientPreparation`) and `time_aspect` (`timeAspect`) drop to null;
nested codeable concepts lose their codings' `user_selected`. -/
def reconstructSpec (sd : SpecimenDefinition) : SpecimenDefinition :=
  { id := sd.id
    version := sd.version
    name := sd.name
    title := sd.title
    status := sd.status
    description := sd.description
    type_collected := none
    patient_preparation := none
    time_aspect := none
    collection := sd.collection.map (fun cs => cs.map reconstructCC) }

/-- The effect of one store-and-reconstruct cycle on a resource: every
top-level field survives, and the nested alias-declared fields drop to
null. -/
def scrubAliases (t : LabTestDefinition) : LabTestDefinition :=
  { t with
    code := reconstructCC t.code
    category := t.category.map reconstructCC
    observation_definition := reconstructObs t.observation_definition
    specimen_definition := t.specimen_definition.map reconstructSpec }

/-- `FHIRService._convert_fhir_to_db`.  A pydantic model instance is always
truthy, so `fhir_obj.code.dict() if fhir_obj.code else None` always takes
the first branch; an empty category list is falsy and maps to `None`. -/
def convertFhirToDb (t : LabTestDefinition) : Row :=
  { id := t.id
    name := t.name
    version := t.version
    status := statusStr t.status
    description := t.description
    clinical_purpose := t.clinical_purpose
    created_by := t.created_by
    code := some t.code
    category := if t.category.isEmpty then none else some t.category
    observation_definition := some t.observation_definition
    specimen_definition := t.specimen_definition
    reference_ranges := t.reference_ranges
    critical_values := t.critical_values
    precision := t.precision
    accuracy := t.accuracy
    turnaround_time := t.turnaround_time
    cost := t.cost
    ordering_information := t.ordering_information
    analytical_method := t.analytical_method
    created_date := t.created_date
    modified_date := t.modified_date
    search_text := none }

/-- `FHIRService._convert_db_to_fhir`.  `none` models the exception raised
when a required field cannot be reconstructed: a null `code` or
`observation_definition` column makes the `LabTestDefinition` constructor
raise, and a status string outside the enumeration makes
`PublicationStatus(...)` raise.  A null or empty stored category list is
falsy and reconstructs to the empty list.  The nested sub-resources are
rebuilt through pydantic validation of the stored dicts, which drops the
alias-declared fields (see the `reconstruct*` functions). -/
def convertDbToFhir (r : Row) : Option LabTestDefinition :=
  match r.code, r.observation_definition, statusFromStr r.status with
  | some code, some od, some st =>
    some { id := r.id
           name := r.name
           code := reconstructCC code
           status := st
           version := r.version
           category := match r.category with
                       | some cs =>
                         if cs.isEmpty then [] else cs.map reconstructCC
                       | none => []
           description := r.description
           clinical_purpose := r.clinical_purpose
           observation_definition := reconstructObs od
           specimen_definition := r.specimen_definition.map reconstructSpec
           reference_ranges := r.reference_ranges
           critical_values := r.critical_values
           analytical_method := r.analytical_method
           precision := r.precision
           accuracy := r.accuracy
           turnaround_time := r.turnaround_time
           cost := r.cost
           ordering_information := r.ordering_information
           created_date := r.created_date
           modified_date := r.modified_date
           created_by := r.created_by }
  | _, _, _ => none

theorem statusFromStr_statusStr (s : PublicationStatus) :
    statusFromStr (statusStr s) = some s := by
  cases s <;> rfl

/-- Round-trip through the row shape, allowing the id and search_text
columns to be overridden the way `create`/`update` do: the result is the
input with the nested alias-declared fields scrubbed. -/
theorem convertDbToFhir_override (t : LabTestDefinition) (i : String)
    (s : Option String) :
    convertDbToFhir { convertFhirToDb t with id := i, search_text := s } =
      some { scrubAliases t with id := i } := by
  unfold convertFhirToDb convertDbToFhir scrubAliases
  simp only [statusFromStr_statusStr]
  cases h : t.category with
  | nil => simp [h]
  | cons c cs => simp [h]

/-- Python truthiness of an optional string: both `None` and `""` are
falsy. -/
def optStrTruthy : Option String → Bool
  | some s => !(s == "")
  | none => false

/-- Python truthiness of an optional list: `None` and `[]` are falsy. -/
def optListTruthy {α : Type} : Option (List α) → Bool
  | some (_ :: _) => true
  | _ => false

/-- Python truthiness of a pydantic model instance: `BaseModel` defines no
`__bool__`/`__len__`, so an instance is always truthy. -/
def modelTruthy (_ : CodeableConcept) : Bool := true

/-- Truthiness of `test_definition.code.coding`: a present, non-empty
coding list. -/
def codingTruthy (cc : CodeableConcept) : Bool := optListTruthy cc.coding

/-- Rendering of an optional string inside an f-string: Python prints
`None` for the missing value. -/
def pyStrOpt : Option String → String
  | some s => s
  | none => "None"

/-- A single validation issue as the service emits it. -/
structure Issue where
  severity : String
  code : String
  details : String
deriving DecidableEq

/-- `FHIRService.validate_lab_test`: the issue list, in emission order.
The two guards on always-truthy pydantic instances
(`not test_definition.code`, `not obs_def.code`, `if obs_def:`) are spelled
via `modelTruthy`. -/
def validateLabTest (t : LabTestDefinition) : List Issue :=
  (if t.name == "" then
    [ ⟨ "error", "required", "Test name is required" ⟩ ] else []) ++
  (if !(modelTruthy t.code) || !(codingTruthy t.code) then
    [ ⟨ "error", "required", "Test code is required" ⟩ ] else []) ++
  (if t.description == "" then
    [ ⟨ "error", "required", "Test description is required" ⟩ ] else []) ++
  (if modelTruthy t.code && codingTruthy t.code then
    (t.code.coding.getD []).flatMap (fun c =>
      (if !(optStrTruthy c.system) then
        [ ⟨ "warning", "incomplete",
            "Coding system not specified for code " ++ pyStrOpt c.code ⟩ ]
       else []) ++
      (if !(optStrTruthy c.display) then
        [ ⟨ "information", "incomplete",
            "Display name not provided for code " ++ pyStrOpt c.code ⟩ ]
       else []))
   else []) ++
  (if t.category.isEmpty then
    [ ⟨ "warning", "incomplete", "Test category should be specified" ⟩ ]
   else []) ++
  (if !(([ "draft", "active", "retired", "unknown" ] : List String).contains
          (statusStr t.observation_definition.status)) then
    [ ⟨ "error", "invalid",
        "Invalid status: " ++ statusStr t.observation_definition.status ⟩ ]
   else []) ++
  (if !(modelTruthy t.observation_definition.code) then
    [ ⟨ "error", "required", "ObservationDefinition code is required" ⟩ ]
   else [])

/-- Membership in a conditional chunk implies membership in its non-empty
branch. -/
theorem mem_ite_nil {c : Prop} [Decidable c] {l : List Issue} {i : Issue}
    (h : i ∈ (if c then l else [])) : i ∈ l := by
  split at h
  · exact h
  · cases h

/-- C3: the validation rules, clause by clause.  The conjuncts about an
out-of-range embedded status and a missing embedded code hold because the
guards fire exactly as the source writes them; over well-typed resources
those guards never fire (see the unreachability theorem for C10), so the
implications are vacuously satisfied. -/
theorem c3_validate_rules (t : LabTestDefinition) :
    (t.name = "" →
      (⟨ "error", "required", "Test name is required" ⟩ : Issue) ∈
        validateLabTest t) ∧
    (codingTruthy t.code = false →
      (⟨ "error", "required", "Test code is required" ⟩ : Issue) ∈
        validateLabTest t) ∧
    (t.description = "" →
      (⟨ "error", "required", "Test description is required" ⟩ : Issue) ∈
        validateLabTest t) ∧
    (∀ l c, t.code.coding = some l → c ∈ l → optStrTruthy c.system = false →
      (⟨ "warning", "incomplete",
         "Coding system not specified for code " ++ pyStrOpt c.code ⟩ :
        Issue) ∈ validateLabTest t) ∧
    (∀ l c, t.code.coding = some l → c ∈ l → optStrTruthy c.display = false →
      (⟨ "information", "incomplete",
         "Display name not provided for code " ++ pyStrOpt c.code ⟩ :
        Issue) ∈ validateLabTest t) ∧
    (t.category = [] →
      (⟨ "warning", "incomplete", "Test category should be specified" ⟩ :
        Issue) ∈ validateLabTest t) ∧
    ((([ "draft", "active", "retired", "unknown" ] : List String).contains
        (statusStr t.observation_definition.status) = false) →
      (⟨ "error", "invalid",
         "Invalid status: " ++ statusStr t.observation_definition.status ⟩ :
        Issue) ∈ validateLabTest t) ∧
    (modelTruthy t.observation_definition.code = false →
      (⟨ "error", "required", "ObservationDefinition code is required" ⟩ :
        Issue) ∈ validateLabTest t) ∧
    (t.name = "" → t.description = "" →
      2 ≤ ((validateLabTest t).filter
            (fun i => i.severity == "error" && i.code == "required")).length) := by
  refine ⟨ ?_, ?_, ?_, ?_, ?_, ?_, ?_, ?_, ?_ ⟩
  · intro h
    simp [validateLabTest, h]
  · intro h
    simp [validateLabTest, h]
  · intro h
    simp [validateLabTest, h]
  · intro l c hl hc hs
    have hct : codingTruthy t.code = true := by
      cases l with
      | nil => cases hc
      | cons a as => simp [codingTruthy, optListTruthy, hl]
    unfold validateLabTest
    refine List.mem_append_left _ (List.mem_append_left _
      (List.mem_append_left _ (List.mem_append_right _ ?_)))
    simp only [modelTruthy, hct, Bool.and_self, if_true, hl, Option.getD_some,
      List.mem_flatMap]
    exact ⟨ c, hc, by simp [hs] ⟩
  · intro l c hl hc hs
    have hct : codingTruthy t.code = true := by
      cases l with
      | nil => cases hc
      | cons a as => simp [codingTruthy, optListTruthy, hl]
    unfold validateLabTest
    refine List.mem_append_left _ (List.mem_append_left _
      (List.mem_append_left _ (List.mem_append_right _ ?_)))
    simp only [modelTruthy, hct, Bool.and_self, if_true, hl, Option.getD_some,
      List.mem_flatMap]
    exact ⟨ c, hc, by simp [hs] ⟩
  · intro h
    simp [validateLabTest, h]
  · intro h
    unfold validateLabTest
    refine List.mem_append_left _ (List.mem_append_right _ ?_)
    have hcond : (!(([ "draft", "active", "retired", "unknown" ] :
        List String).contains (statusStr t.observation_definition.status))) =
        true := by
      rw [h]
      rfl
    rw [if_pos hcond]
    exact List.mem_singleton.mpr rfl
  · intro h
    simp [modelTruthy] at h
  · intro h1 h2
    simp only [validateLabTest, h1, h2, List.filter_append, List.length_append]
    simp
    omega

/-- A concrete embedded `ObservationDefinition` used by witnesses. -/
def obs0 : ObservationDefinition :=
  { id := none
    version := none
    name := none
    title := none
    status := .active
    description := none
    category := none
    code := { coding := none, text := some "obs" }
    permitted_data_type := none
    multiple_results_allowed := none
    method := none
    preferred_report_name := none }

/-- A concrete resource with empty name and description and one coding that
lacks both system and display. -/
def c3t : LabTestDefinition :=
  { id := "t-empty"
    name := ""
    code := { coding := some [ ⟨ none, none, some "c1", none, none ⟩ ],
              text := none }
    status := .active
    version := "1.0.0"
    category := []
    description := ""
    clinical_purpose := some "p"
    observation_definition := obs0
    specimen_definition := none
    reference_ranges := none
    critical_values := none
    analytical_method := none
    precision := none
    accuracy := none
    turnaround_time := none
    cost := none
    ordering_information := none
    created_date := 0
    modified_date := 0
    created_by := none }

/-- Witness for C3 at a concrete resource with empty name and description
and one bare coding: the listed issues all appear and the error count is at
least two. -/
theorem c3_validate_rules_witness :
    (⟨ "error", "required", "Test name is required" ⟩ : Issue) ∈
      validateLabTest c3t ∧
    2 ≤ ((validateLabTest c3t).filter
          (fun i => i.severity == "error" && i.code == "required")).length :=
  ⟨ (c3_validate_rules c3t).1 (by decide),
    (c3_validate_rules c3t).2.2.2.2.2.2.2.2 (by decide) (by decide) ⟩

/-- C10: over well-typed resources the error branch for an invalid embedded
status is unreachable: the status string always lies in the fixed status
set, and `validate` never emits an issue with code `invalid`. -/
theorem c10_invalid_status_unreachable (t : LabTestDefinition) :
    (([ "draft", "active", "retired", "unknown" ] : List String).contains
      (statusStr t.observation_definition.status) = true) ∧
    (validateLabTest t).all (fun i => !(i.code == "invalid")) = true := by
  constructor
  · cases t.observation_definition.status <;> rfl
  · have hs : (([ "draft", "active", "retired", "unknown" ] :
        List String).contains (statusStr t.observation_definition.status)) =
        true := by
      cases t.observation_definition.status <;> rfl
    rw [List.all_eq_true]
    intro i hi
    simp only [validateLabTest] at hi
    rcases List.mem_append.mp hi with h6 | hG
    · rcases List.mem_append.mp h6 with h5 | hF
      · rcases List.mem_append.mp h5 with h4 | hE
        · rcases List.mem_append.mp h4 with h3 | hD
          · rcases List.mem_append.mp h3 with h2 | hC
            · rcases List.mem_append.mp h2 with hA | hB
              · have hA' := mem_ite_nil hA
                simp only [List.mem_singleton] at hA'
                subst hA'
                decide
              · have hB' := mem_ite_nil hB
                simp only [List.mem_singleton] at hB'
                subst hB'
                decide
            · have hC' := mem_ite_nil hC
              simp only [List.mem_singleton] at hC'
              subst hC'
              decide
          · have hD' := mem_ite_nil hD
            rcases List.mem_flatMap.mp hD' with ⟨ c, _, hcm ⟩
            rcases List.mem_append.mp hcm with hw | hinf
            · have hw' := mem_ite_nil hw
              simp only [List.mem_singleton] at hw'
              subst hw'
              rfl
            · have hinf' := mem_ite_nil hinf
              simp only [List.mem_singleton] at hinf'
              subst hinf'
              rfl
        · have hE' := mem_ite_nil hE
          simp only [List.mem_singleton] at hE'
          subst hE'
          decide
      · rw [hs] at hF
        simp at hF
    · simp only [modelTruthy] at hG
      simp at hG

/-- Sequencing a list of optional values: `none` anywhere poisons the
whole list, the way an operation on a `None` element (joining, `.lower()`)
raises mid-iteration. -/
def seqOpt {α : Type} : List (Option α) → Option (List α)
  | [] => some []
  | none :: _ => none
  | some s :: rest => (seqOpt rest).map (fun l => s :: l)

/-- Lowercase a string character by character (`str.lower()` for the ASCII
data stored by this service). -/
def strLower (s : String) : String := String.mk (s.data.map Char.toLower)

/-- The category text parts appended by `_generate_search_text`: one
(possibly null) `text` per stored category dict; a null category column
fails the `isinstance` check and contributes nothing. -/
def catTexts (r : Row) : List (Option String) :=
  match r.category with
  | some cs => cs.map (fun c => c.text)
  | none => []

/-- The collected `search_parts` of `_generate_search_text`, still holding
possibly-null elements: name, description, clinical purpose, each coding's
display and code, each category's text.  `none` for the whole collection
models the `TypeError` of the `for` statement iterating a `None` coding
list; a null code column fails the `isinstance` check and contributes
nothing. -/
def searchTextParts (r : Row) : Option (List (Option String)) :=
  match r.code with
  | some cc =>
    match cc.coding with
    | some cs => some ([ some r.name, some r.description,
        r.clinical_purpose ] ++ cs.flatMap (fun c => [ c.display, c.code ]) ++
        catTexts r)
    | none => none
  | none => some ([ some r.name, some r.description, r.clinical_purpose ] ++
      catTexts r)

/-- `DatabaseManager._generate_search_text`: joins the collected parts
with spaces and lowercases the result.  The name and description keys are
always present with string values; `clinical_purpose` and the per-item
keys are always present but may hold `None`, which makes the final
`" ".join(...)` raise `TypeError` (`none`). -/
def generateSearchText (r : Row) : Option String :=
  match searchTextParts r with
  | none => none
  | some ps =>
    match seqOpt ps with
    | some parts => some (strLower (String.intercalate (" ") parts))
    | none => none

/-- The index rows `_update_search_index` builds for one test: the name
row, one row per category text, one row per coding code, in that order.
Calling `.lower()` on a `None` category text or coding code raises
(`none`).  The `coding.get("display", coding["code"])` fallback never
fires because the display key is always present, so the display value is
the (possibly null) display itself. -/
def buildIndexEntries (test_id : String) (r : Row) : Option (List IndexEntry) :=
  let nameEntries : List IndexEntry :=
    [ ⟨ test_id, "name", strLower r.name, some r.name ⟩ ]
  let catEntries : Option (List IndexEntry) :=
    match r.category with
    | some cs =>
      seqOpt (cs.map (fun c => c.text.map (fun tx =>
        (⟨ test_id, "category", strLower tx, some tx ⟩ : IndexEntry))))
    | none => some []
  let codeEntries : Option (List IndexEntry) :=
    match r.code with
    | some cc =>
      match cc.coding with
      | some cs =>
        seqOpt (cs.map (fun c => c.code.map (fun cd =>
          (⟨ test_id, "code", strLower cd, c.display ⟩ : IndexEntry))))
      | none => none
    | none => some []
  match catEntries, codeEntries with
  | some ce, some de => some (nameEntries ++ ce ++ de)
  | _, _ => none

/-- `DatabaseManager._update_search_index`: first deletes the id's existing
index rows, then builds and inserts fresh entries.  When the build raises,
the deletion has already executed; the pair returns the success flag
together with the index table as it then stands. -/
def updateSearchIndex (idx : List IndexEntry) (test_id : String) (r : Row) :
    Option Unit × List IndexEntry :=
  let cleared := idx.filter (fun e => !(e.test_id == test_id))
  match buildIndexEntries test_id r with
  | none => (none, cleared)
  | some es => (some (), cleared ++ es)

/-- The changed top-level field names between the stored row and the new
row values, in the dict iteration order of `_log_action`'s diff loop. -/
def rowDiff (old new : Row) : List String :=
  (if old.id == new.id then [] else [ "id" ]) ++
  (if old.name == new.name then [] else [ "name" ]) ++
  (if old.version == new.version then [] else [ "version" ]) ++
  (if old.status == new.status then [] else [ "status" ]) ++
  (if old.description == new.description then [] else [ "description" ]) ++
  (if old.clinical_purpose == new.clinical_purpose then []
   else [ "clinical_purpose" ]) ++
  (if old.created_by == new.created_by then [] else [ "created_by" ]) ++
  (if old.code == new.code then [] else [ "code" ]) ++
  (if old.category == new.category then [] else [ "category" ]) ++
  (if old.observation_definition == new.observation_definition then []
   else [ "observation_definition" ]) ++
  (if old.specimen_definition == new.specimen_definition then []
   else [ "specimen_definition" ]) ++
  (if old.reference_ranges == new.reference_ranges then []
   else [ "reference_ranges" ]) ++
  (if old.critical_values == new.critical_values then []
   else [ "critical_values" ]) ++
  (if old.precision == new.precision then [] else [ "precision" ]) ++
  (if old.accuracy == new.accuracy then [] else [ "accuracy" ]) ++
  (if old.turnaround_time == new.turnaround_time then []
   else [ "turnaround_time" ]) ++
  (if old.cost == new.cost then [] else [ "cost" ]) ++
  (if old.ordering_information == new.ordering_information then []
   else [ "ordering_information" ]) ++
  (if old.analytical_method == new.analytical_method then []
   else [ "analytical_method" ]) ++
  (if old.created_date == new.created_date then [] else [ "created_date" ]) ++
  (if old.modified_date == new.modified_date then []
   else [ "modified_date" ]) ++
  (if old.search_text == new.search_text then [] else [ "search_text" ])

/-- `DatabaseManager._log_action`: appends one audit row.  For CREATE and
DELETE the computed diff dict is empty and falsy, so `changes` is null. -/
def logAction (log : List AuditEntry) (action resource_id : String)
    (changes : Option (List String)) : List AuditEntry :=
  log ++ [ ⟨ action, "LabTestDefinition", resource_id, none, changes, none ⟩ ]

/-- `DatabaseManager.get_lab_test_definition`: point lookup by primary
key. -/
def getLabTestDefinition (db : DB) (test_id : String) : Option Row :=
  db.tests.find? (fun r => r.id == test_id)

/-- `DatabaseManager.create_lab_test_definition`.  The search text is
computed first (an exception there leaves the store untouched); the insert
fails on a duplicate primary key (`IntegrityError`, also before any
write); then the search index is rebuilt and a CREATE audit row appended.
The first component is the returned row (`none` models an exception), the
second the resulting state. -/
def createLabTestDefinition (db : DB) (row : Row) : Option Row × DB :=
  match generateSearchText row with
  | none => (none, db)
  | some st =>
    let row' := { row with search_text := some st }
    if (getLabTestDefinition db row.id).isSome then
      (none, db)
    else
      let db1 : DB := { db with tests := db.tests ++ [ row' ] }
      match updateSearchIndex db1.index row.id row' with
      | (none, idx) => (none, { db1 with index := idx })
      | (some _, idx) =>
        let db2 : DB := { db1 with index := idx }
        (some row', { db2 with
          audit := logAction db2.audit ("CREATE") row.id none })

/-- `DatabaseManager.update_lab_test_definition`.  Checks existence first
(absent: `some none`, nothing written), stamps the modified date to now,
recomputes the search text (an exception leaves the store untouched),
updates every matching row to the new values, rebuilds the index, appends
an UPDATE audit row with the field diff, and returns the re-fetched row. -/
def updateLabTestDefinition (db : DB) (test_id : String) (row : Row)
    (now : Nat) : Option (Option Row) × DB :=
  match getLabTestDefinition db test_id with
  | none => (some none, db)
  | some existing =>
    let row1 := { row with modified_date := now }
    match generateSearchText row1 with
    | none => (none, db)
    | some st =>
      let row2 := { row1 with search_text := some st }
      let db1 : DB := { db with
        tests := db.tests.map (fun r => if r.id == test_id then row2 else r) }
      match updateSearchIndex db1.index test_id row2 with
      | (none, idx) => (none, { db1 with index := idx })
      | (some _, idx) =>
        let db2 : DB := { db1 with index := idx }
        let d := rowDiff existing row2
        let db3 : DB := { db2 with
          audit := logAction db2.audit ("UPDATE") test_id
            (if d.isEmpty then none else some d) }
        (some (getLabTestDefinition db3 test_id), db3)

/-- `DatabaseManager.delete_lab_test_definition`: absent ids return false
with nothing written; otherwise the primary row and the id's index rows
are removed and a DELETE audit row appended. -/
def deleteLabTestDefinition (db : DB) (test_id : String) : Bool × DB :=
  match getLabTestDefinition db test_id with
  | none => (false, db)
  | some _ =>
    let db1 : DB := { db with
      tests := db.tests.filter (fun r => !(r.id == test_id)) }
    let db2 : DB := { db1 with
      index := db1.index.filter (fun e => !(e.test_id == test_id)) }
    (true, { db2 with audit := logAction db2.audit ("DELETE") test_id none })

/-- Containment of `p` as a contiguous run inside a character list. -/
def containsRun (p : List Char) : List Char → Bool
  | [] => p.isEmpty
  | c :: rest => p.isPrefixOf (c :: rest) || containsRun p rest

/-- Every suffix of a character list, longest first (the list itself down
to `[]`). -/
def suffixes : List Char → List (List Char)
  | [] => [ [] ]
  | c :: t => (c :: t) :: suffixes t

/-- The SQLite LIKE pattern matcher (no ESCAPE clause): `%` matches any
run of characters including the empty one, `_` matches exactly one
character, any other pattern character matches itself.  Both pattern and
subject are lowercased by the caller, which realises the default
ASCII-case-insensitive collation. -/
def likeMatch : List Char → List Char → Bool
  | [], s => s.isEmpty
  | p :: ps, s =>
    if p = '%' then (suffixes s).any (fun t => likeMatch ps t)
    else
      match s with
      | [] => false
      | c :: t => if p = '_' then likeMatch ps t else p == c && likeMatch ps t

/-- `column LIKE '%pat%'` under the default collation: the interpolated
filter becomes part of the pattern, so `%` and `_` inside it act as
wildcards, and comparison is ASCII-case-insensitive. -/
def likeContains (s pat : String) : Bool :=
  likeMatch (strLower ("%" ++ pat ++ "%")).data (strLower s).data

/-- Rendering of a JSON string value.  Escaping of special characters is
not modelled; no stored value in this development requires it. -/
def jsonStr (s : String) : String := "\"" ++ s ++ "\""

/-- Rendering of a nullable JSON string value. -/
def jsonOptStr : Option String → String
  | some s => jsonStr s
  | none => "null"

/-- Rendering of a nullable JSON boolean value. -/
def jsonOptBool : Option Bool → String
  | some true => "true"
  | some false => "false"
  | none => "null"

/-- The minified JSON text of one stored coding dict, keys in pydantic
field order. -/
def codingJson (c : Coding) : String :=
  "\x7b\"system\":" ++ jsonOptStr c.system ++
  ",\"version\":" ++ jsonOptStr c.version ++
  ",\"code\":" ++ jsonOptStr c.code ++
  ",\"display\":" ++ jsonOptStr c.display ++
  ",\"user_selected\":" ++ jsonOptBool c.user_selected ++ "\x7d"

/-- The minified JSON text of one stored CodeableConcept dict. -/
def codeableConceptJson (cc : CodeableConcept) : String :=
  "\x7b\"coding\":" ++
  (match cc.coding with
   | some cs => "[" ++ String.intercalate (",") (cs.map codingJson) ++ "]"
   | none => "null") ++
  ",\"text\":" ++ jsonOptStr cc.text ++ "\x7d"

/-- `JSON_EXTRACT(category, '$')`: the minified JSON text of the stored
category list (SQLite re-renders extracted JSON minified). -/
def categoryJson (cs : List CodeableConcept) : String :=
  "[" ++ String.intercalate (",") (cs.map codeableConceptJson) ++ "]"

/-- `JSON_EXTRACT(code, '$.coding[0].code')`: the first coding's code, null
when the column, the coding list, the first element or its code is
missing. -/
def firstCodingCode (r : Row) : Option String :=
  match r.code with
  | some cc =>
    match cc.coding with
    | some (c :: _) => c.code
    | _ => none
  | none => none

/-- The WHERE clause built by `search_lab_test_definitions`: the supplied
(truthy) filters are conjoined.  Free text: `search_text LIKE '%q%'` (a
null blob never matches, SQL NULL).  Category: any of the given strings
LIKE-matches the JSON text of the category column (null never matches).
Status: exact equality with any of the given statuses.  Code: exact
equality with the first coding's code. -/
def rowMatches (q : Option String) (category : Option (List String))
    (status : Option (List String)) (code : Option String) (r : Row) : Bool :=
  (if optStrTruthy q then
    (match r.search_text with
     | some st => likeContains st (q.getD (""))
     | none => false)
   else true) &&
  (if optListTruthy category then
    (match r.category with
     | some cs => (category.getD []).any (fun cat =>
         likeContains (categoryJson cs) cat)
     | none => false)
   else true) &&
  (if optListTruthy status then
    (status.getD []).any (fun s => r.status == s)
   else true) &&
  (if optStrTruthy code then
    (match firstCodingCode r with
     | some c0 => c0 == code.getD ("")
     | none => false)
   else true)

/-- The `ORDER BY {sort_by}` key.  The source interpolates the caller's
column name unchecked into the SQL; the model covers the string-typed
columns and keys any other name by name (the claims are insensitive to the
sort order). -/
def sortKey (sort_by : String) (r : Row) : String :=
  if sort_by = "id" then r.id
  else if sort_by = "status" then r.status
  else if sort_by = "version" then r.version
  else if sort_by = "description" then r.description
  else r.name

/-- Insert into a sorted list (ascending under `le`). -/
def insertOrdered (le : Row → Row → Bool) (r : Row) : List Row → List Row
  | [] => [ r ]
  | x :: xs => if le r x then r :: x :: xs else x :: insertOrdered le r xs

/-- The comparison `ORDER BY` uses: ascending when the lowercased order
string is `asc`, else descending. -/
def sortLe (sort_by sort_order : String) (a b : Row) : Bool :=
  if strLower sort_order = "asc" then
    decide (sortKey sort_by a ≤ sortKey sort_by b)
  else
    decide (sortKey sort_by b ≤ sortKey sort_by a)

/-- Sort rows by the requested column and direction. -/
def sortRows (sort_by sort_order : String) (rows : List Row) : List Row :=
  rows.foldr (insertOrdered (sortLe sort_by sort_order)) []

/-- The shape `search_lab_test_definitions` returns. -/
structure SearchResult where
  total : Nat
  count : Nat
  offset : Nat
  results : List Row
  facetStatus : List (String × Nat)
  facetCategory : List (String × Nat)
deriving DecidableEq

/-- `_get_search_facets`: status counts grouped under the same WHERE
clause. -/
def statusFacet (rows : List Row) : List (String × Nat) :=
  ((rows.map (fun r => r.status)).dedup).map
    (fun s => (s, rows.countP (fun r => r.status == s)))

/-- `DatabaseManager.search_lab_test_definitions`.  The count query runs
the same WHERE clause without pagination; the main query orders, then
applies OFFSET and LIMIT; the category facet is the hardcoded placeholder
of the source.  `specimen_type` and `code_system` are accepted and ignored
exactly as in the source, which never builds a condition from them. -/
def searchLabTestDefinitions (db : DB) (q : Option String)
    (category : Option (List String)) (status : Option (List String))
    (specimen_type : Option (List String)) (code_system : Option String)
    (code : Option String) (limit offset : Nat)
    (sort_by sort_order : String) : SearchResult :=
  let matched := db.tests.filter (rowMatches q category status code)
  let page := ((sortRows sort_by sort_order matched).drop offset).take limit
  { total := matched.length
    count := page.length
    offset := offset
    results := page
    facetStatus := statusFacet matched
    facetCategory := [ ("chemistry", 45), ("hematology", 32),
      ("immunology", 28) ] }

/-- `FHIRService.get_lab_test_by_id`: absent rows give `None`; present
rows are converted back to the resource shape (a conversion failure raises
and is likewise modelled by `none`). -/
def getLabTestById (db : DB) (test_id : String) : Option LabTestDefinition :=
  match getLabTestDefinition db test_id with
  | none => none
  | some r => convertDbToFhir r

/-- `FHIRService.create_lab_test`: converts the resource to row shape,
replaces a falsy (empty) id with a fresh uuid — `fresh` stands for
`str(uuid.uuid4())` — persists, and converts the stored row back. -/
def createLabTest (db : DB) (t : LabTestDefinition) (fresh : String) :
    Option LabTestDefinition × DB :=
  let d := convertFhirToDb t
  let d1 := if d.id == "" then { d with id := fresh } else d
  match createLabTestDefinition db d1 with
  | (none, db1) => (none, db1)
  | (some created, db1) => (convertDbToFhir created, db1)

/-- `FHIRService.update_lab_test`: converts, forces the path id onto the
row, and delegates; absent ids surface as `some none`. -/
def updateLabTest (db : DB) (test_id : String) (t : LabTestDefinition)
    (now : Nat) : Option (Option LabTestDefinition) × DB :=
  let d := { convertFhirToDb t with id := test_id }
  match updateLabTestDefinition db test_id d now with
  | (none, db1) => (none, db1)
  | (some none, db1) => (some none, db1)
  | (some (some r), db1) => (some (convertDbToFhir r), db1)

theorem seqOpt_forall_isSome {α : Type} {l : List (Option α)}
    {xs : List α} (h : seqOpt l = some xs) : ∀ o ∈ l, o.isSome := by
  induction l generalizing xs with
  | nil => intro o ho; cases ho
  | cons a rest ih =>
    intro o ho
    cases a with
    | none => simp [seqOpt] at h
    | some s =>
      cases ho with
      | head => rfl
      | tail _ hrest =>
        simp only [seqOpt] at h
        cases hr : seqOpt rest with
        | none => rw [hr] at h; simp at h
        | some ys => exact ih hr o hrest

theorem seqOpt_isSome {α : Type} {l : List (Option α)}
    (h : ∀ o ∈ l, o.isSome) : (seqOpt l).isSome := by
  induction l with
  | nil => rfl
  | cons a rest ih =>
    cases a with
    | none => exact absurd (h none (List.mem_cons_self _ _)) (by simp)
    | some s =>
      have := ih (fun o ho => h o (List.mem_cons_of_mem _ ho))
      rcases Option.isSome_iff_exists.mp this with ⟨ ys, hys ⟩
      simp [seqOpt, hys]

/-- An empty database and a minimal stored row, used by witnesses. -/
def db0 : DB := { tests := [], index := [], audit := [] }

/-- A minimal concrete row whose search text generates successfully. -/
def row0 : Row :=
  { id := "t1"
    name := "n"
    version := "1.0.0"
    status := "active"
    description := "d"
    clinical_purpose := some "p"
    created_by := none
    code := none
    category := none
    observation_definition := none
    specimen_definition := none
    reference_ranges := none
    critical_values := none
    precision := none
    accuracy := none
    turnaround_time := none
    cost := none
    ordering_information := none
    analytical_method := none
    created_date := 1
    modified_date := 1
    search_text := some "n d p" }

/-- A database holding `row0` and one index row for it. -/
def c4db : DB :=
  { tests := [ row0 ]
    index := [ ⟨ "t1", "name", "n", some "n" ⟩ ]
    audit := [] }

/-- C4: deleting an absent id returns false and changes nothing; deleting a
present id returns true, after which the id no longer resolves and no
search-index row references it. -/
theorem c4_delete_removes_row_and_index (db : DB) (test_id : String) :
    (getLabTestDefinition db test_id = none →
      deleteLabTestDefinition db test_id = (false, db)) ∧
    ((getLabTestDefinition db test_id).isSome →
      (deleteLabTestDefinition db test_id).fst = true ∧
      getLabTestDefinition (deleteLabTestDefinition db test_id).snd test_id
        = none ∧
      ∀ e ∈ (deleteLabTestDefinition db test_id).snd.index,
        e.test_id ≠ test_id) := by
  constructor
  · intro h
    simp [deleteLabTestDefinition, h]
  · intro h
    rcases Option.isSome_iff_exists.mp h with ⟨ r, hr ⟩
    refine ⟨ by simp [deleteLabTestDefinition, hr], ?_, ?_ ⟩
    · simp only [deleteLabTestDefinition, hr]
      unfold getLabTestDefinition
      rw [List.find?_eq_none]
      intro x hx
      have hk := (List.mem_filter.mp hx).2
      simpa using hk
    · intro e he
      simp only [deleteLabTestDefinition, hr] at he
      have hk := (List.mem_filter.mp he).2
      simpa using hk

/-- Witness for C4: after deleting the present id `t1`, the lookup is
empty. -/
theorem c4_delete_witness :
    getLabTestDefinition (deleteLabTestDefinition c4db ("t1")).snd ("t1")
      = none :=
  ((c4_delete_removes_row_and_index c4db ("t1")).2 (by decide)).2.1

/-- C6: the page size never exceeds the requested limit, the response
echoes the requested offset, and the total is computed from the filters
alone, identical for every limit/offset over the same dataset. -/
theorem c6_pagination (db : DB) (q : Option String)
    (category status specimen_type : Option (List String))
    (code_system code : Option String) (limit offset : Nat)
    (sort_by sort_order : String) (limit2 offset2 : Nat) :
    (searchLabTestDefinitions db q category status specimen_type code_system
      code limit offset sort_by sort_order).count ≤ limit ∧
    (searchLabTestDefinitions db q category status specimen_type code_system
      code limit offset sort_by sort_order).offset = offset ∧
    (searchLabTestDefinitions db q category status specimen_type code_system
      code limit offset sort_by sort_order).total =
    (searchLabTestDefinitions db q category status specimen_type code_system
      code limit2 offset2 sort_by sort_order).total := by
  refine ⟨ ?_, rfl, rfl ⟩
  simp only [searchLabTestDefinitions, List.length_take]
  exact inf_le_left

/-- C7: updating an id that does not exist returns absent and leaves the
primary table, the search index and the audit log untouched. -/
theorem c7_update_absent_no_write (db : DB) (test_id : String) (row : Row)
    (now : Nat) (h : getLabTestDefinition db test_id = none) :
    updateLabTestDefinition db test_id row now = (some none, db) := by
  simp [updateLabTestDefinition, h]

/-- Witness for C7 on the empty database. -/
theorem c7_update_absent_no_write_witness :
    updateLabTestDefinition db0 ("missing") row0 7 = (some none, db0) :=
  c7_update_absent_no_write db0 ("missing") row0 7 (by decide)

theorem seqOpt_eq_none_of_mem {α : Type} {l : List (Option α)}
    (h : (none : Option α) ∈ l) : seqOpt l = none := by
  induction l with
  | nil => cases h
  | cons a rest ih =>
    cases a with
    | none => rfl
    | some s =>
      rcases List.mem_cons.mp h with h1 | h2
      · cases h1
      · simp [seqOpt, ih h2]

theorem generateSearchText_none_of_cp (r : Row)
    (h : r.clinical_purpose = none) : generateSearchText r = none := by
  unfold generateSearchText
  cases hp : searchTextParts r with
  | none => rfl
  | some ps =>
    have hmem : (none : Option String) ∈ ps := by
      unfold searchTextParts at hp
      cases hc : r.code with
      | none =>
        simp only [hc] at hp
        cases hp
        simp [h]
      | some cc =>
        simp only [hc] at hp
        cases hcc : cc.coding with
        | none => simp only [hcc] at hp; cases hp
        | some cs =>
          simp only [hcc] at hp
          cases hp
          simp [h]
    dsimp only
    rw [seqOpt_eq_none_of_mem hmem]

theorem cp_isSome_of_generateSearchText (r : Row)
    (h : (generateSearchText r).isSome) : r.clinical_purpose.isSome := by
  by_contra hc
  rw [Option.not_isSome_iff_eq_none] at hc
  rw [generateSearchText_none_of_cp r hc] at h
  simp at h

/-- The row used by the C9 witness: its clinical purpose is absent. -/
def c9row : Row := { row0 with clinical_purpose := none }

/-- C9: a resource without a clinical purpose makes the search-text join
raise before any table is written, so create raises with the store
unchanged, and update on an existing id likewise; create and update
complete successfully only when the clinical purpose is a string. -/
theorem c9_clinical_purpose_required (db : DB) (row : Row)
    (test_id : String) (now : Nat) :
    (row.clinical_purpose = none →
      createLabTestDefinition db row = (none, db) ∧
      ((getLabTestDefinition db test_id).isSome →
        updateLabTestDefinition db test_id row now = (none, db))) ∧
    ((createLabTestDefinition db row).fst.isSome →
      row.clinical_purpose.isSome) ∧
    (∀ res, (updateLabTestDefinition db test_id row now).fst
        = some (some res) → row.clinical_purpose.isSome) := by
  refine ⟨ ?_, ?_, ?_ ⟩
  · intro h
    have hg := generateSearchText_none_of_cp row h
    constructor
    · simp [createLabTestDefinition, hg]
    · intro hex
      rcases Option.isSome_iff_exists.mp hex with ⟨ r, hr ⟩
      have hg1 : generateSearchText { row with modified_date := now }
          = none := generateSearchText_none_of_cp _ h
      simp [updateLabTestDefinition, hr, hg1]
  · intro h
    unfold createLabTestDefinition at h
    cases hg : generateSearchText row with
    | none => rw [hg] at h; simp at h
    | some st => exact cp_isSome_of_generateSearchText row (by rw [hg]; rfl)
  · intro res h
    by_contra hcp
    rw [Option.not_isSome_iff_eq_none] at hcp
    have hg : generateSearchText { row with modified_date := now } = none :=
      generateSearchText_none_of_cp _ hcp
    cases hm : getLabTestDefinition db test_id with
    | none => simp [updateLabTestDefinition, hm] at h
    | some ex => simp [updateLabTestDefinition, hm, hg] at h

/-- Witness for C9: creating the clinical-purpose-free row raises with the
store unchanged. -/
theorem c9_clinical_purpose_required_witness :
    createLabTestDefinition db0 c9row = (none, db0) :=
  ((c9_clinical_purpose_required db0 c9row ("x") 0).1 rfl).1

theorem searchTextParts_forall_isSome (r : Row) {ps : List (Option String)}
    (hp : searchTextParts r = some ps) (h : (generateSearchText r).isSome) :
    ∀ o ∈ ps, o.isSome := by
  unfold generateSearchText at h
  rw [hp] at h
  dsimp only at h
  cases hq : seqOpt ps with
  | none => rw [hq] at h; simp at h
  | some parts => exact seqOpt_forall_isSome hq

theorem buildIndexEntries_isSome (tid : String) (r : Row) (s : Option String)
    (h : (generateSearchText r).isSome) :
    (buildIndexEntries tid { r with search_text := s }).isSome := by
  unfold buildIndexEntries
  cases hc : r.code with
  | none =>
    simp only [hc]
    cases hcat : r.category with
    | none => simp [hcat]
    | some ccs =>
      have hp : searchTextParts r = some ([ some r.name, some r.description,
          r.clinical_purpose ] ++ catTexts r) := by
        unfold searchTextParts
        simp [hc]
      have hall := searchTextParts_forall_isSome r hp h
      have hsome : (seqOpt (ccs.map (fun c => c.text.map (fun tx =>
          (⟨ tid, "category", strLower tx, some tx ⟩ :
            IndexEntry))))).isSome := by
        apply seqOpt_isSome
        intro o ho
        rcases List.mem_map.mp ho with ⟨ c, hcmem, hco ⟩
        have hct := hall c.text (by
          refine List.mem_append_right _ ?_
          unfold catTexts
          rw [hcat]
          exact List.mem_map.mpr ⟨ c, hcmem, rfl ⟩)
        rcases Option.isSome_iff_exists.mp hct with ⟨ tx, htx ⟩
        rw [← hco, htx]
        rfl
      rcases Option.isSome_iff_exists.mp hsome with ⟨ es, hes ⟩
      simp [hcat, hes]
  | some cc =>
    simp only [hc]
    cases hcc : cc.coding with
    | none =>
      exfalso
      have : generateSearchText r = none := by
        unfold generateSearchText searchTextParts
        simp [hc, hcc]
      rw [this] at h
      simp at h
    | some cs =>
      have hp : searchTextParts r = some ([ some r.name, some r.description,
          r.clinical_purpose ] ++ cs.flatMap (fun c => [ c.display, c.code ])
          ++ catTexts r) := by
        unfold searchTextParts
        simp [hc, hcc]
      have hall := searchTextParts_forall_isSome r hp h
      have hcode : (seqOpt (cs.map (fun c => c.code.map (fun cd =>
          (⟨ tid, "code", strLower cd, c.display ⟩ :
            IndexEntry))))).isSome := by
        apply seqOpt_isSome
        intro o ho
        rcases List.mem_map.mp ho with ⟨ c, hcmem, hco ⟩
        have hcd0 := hall c.code (by
          refine List.mem_append_left _ (List.mem_append_right _ ?_)
          exact List.mem_flatMap.mpr ⟨ c, hcmem, by simp ⟩)
        rcases Option.isSome_iff_exists.mp hcd0 with ⟨ cd, hcd ⟩
        rw [← hco, hcd]
        rfl
      rcases Option.isSome_iff_exists.mp hcode with ⟨ de, hde ⟩
      simp only [hcc]
      cases hcat : r.category with
      | none => simp [hde]
      | some ccs =>
        have hsome : (seqOpt (ccs.map (fun c => c.text.map (fun tx =>
            (⟨ tid, "category", strLower tx, some tx ⟩ :
              IndexEntry))))).isSome := by
          apply seqOpt_isSome
          intro o ho
          rcases List.mem_map.mp ho with ⟨ c, hcmem, hco ⟩
          have hct := hall c.text (by
            refine List.mem_append_right _ ?_
            unfold catTexts
            rw [hcat]
            exact List.mem_map.mpr ⟨ c, hcmem, rfl ⟩)
          rcases Option.isSome_iff_exists.mp hct with ⟨ tx, htx ⟩
          rw [← hco, htx]
          rfl
        rcases Option.isSome_iff_exists.mp hsome with ⟨ es, hes ⟩
        simp [hes, hde]

theorem createLabTestDefinition_success (db : DB) (row : Row) (st : String)
    (es : List IndexEntry) (hg : generateSearchText row = some st)
    (hes : buildIndexEntries row.id { row with search_text := some st }
      = some es)
    (hdup : getLabTestDefinition db row.id = none) :
    createLabTestDefinition db row =
      (some { row with search_text := some st },
       { tests := db.tests ++ [ { row with search_text := some st } ]
         index := db.index.filter (fun e => !(e.test_id == row.id)) ++ es
         audit := logAction db.audit ("CREATE") row.id none }) := by
  unfold createLabTestDefinition updateSearchIndex
  rw [hg]
  simp [hdup, hes]

/-- C5 (amended): a successful create followed by a get at the created
record's id returns the input with the id populated — kept when the input
supplied one, the fresh server-assigned uuid otherwise — and with the
nested alias-declared fields dropped to null by the pydantic
reconstruction; it equals the input exactly when those fields are absent
in the input. -/
theorem c5_create_then_get_amended (db : DB) (t : LabTestDefinition)
    (fresh : String) (out : LabTestDefinition)
    (h : (createLabTest db t fresh).fst = some out) :
    out = { scrubAliases t with id := if t.id = "" then fresh else t.id } ∧
    getLabTestById (createLabTest db t fresh).snd out.id = some out := by
  have hd1 : (if (convertFhirToDb t).id == "" then
      { convertFhirToDb t with id := fresh } else convertFhirToDb t) =
      { convertFhirToDb t with id := if t.id = "" then fresh else t.id } := by
    by_cases hid : t.id = "" <;> simp [convertFhirToDb, hid]
  simp only [createLabTest] at h ⊢
  rw [hd1] at h ⊢
  cases hg : generateSearchText
      { convertFhirToDb t with id := if t.id = "" then fresh else t.id } with
  | none => simp [createLabTestDefinition, hg] at h
  | some st =>
    by_cases hdup : (getLabTestDefinition db
        (if t.id = "" then fresh else t.id)).isSome
    · rcases Option.isSome_iff_exists.mp hdup with ⟨ ex, hex ⟩
      simp [createLabTestDefinition, hg, hex] at h
    · have hdup2 : getLabTestDefinition db
          (if t.id = "" then fresh else t.id) = none :=
        Option.not_isSome_iff_eq_none.mp hdup
      have hbis : (buildIndexEntries
          ({ convertFhirToDb t with
              id := if t.id = "" then fresh else t.id } : Row).id
          { ({ convertFhirToDb t with
              id := if t.id = "" then fresh else t.id } : Row) with
            search_text := some st }).isSome :=
        buildIndexEntries_isSome _ _ (some st) (by rw [hg]; rfl)
      rcases Option.isSome_iff_exists.mp hbis with ⟨ es, hes ⟩
      have hcreate := createLabTestDefinition_success db
        { convertFhirToDb t with id := if t.id = "" then fresh else t.id }
        st es hg hes hdup2
      rw [hcreate] at h ⊢
      dsimp only at h ⊢
      have hout : some ({ scrubAliases t with
          id := if t.id = "" then fresh else t.id } :
          LabTestDefinition) = some out :=
        (convertDbToFhir_override t (if t.id = "" then fresh else t.id)
          (some st)).symm.trans h
      have hout2 := Option.some_inj.mp hout
      subst hout2
      refine ⟨ rfl, ?_ ⟩
      unfold getLabTestById getLabTestDefinition
      dsimp only
      rw [List.find?_append]
      have h1 : db.tests.find?
          (fun r => r.id == (if t.id = "" then fresh else t.id)) = none :=
        hdup2
      rw [h1]
      have h2 : List.find?
          (fun r => r.id == (if t.id = "" then fresh else t.id))
          [ { ({ convertFhirToDb t with
                id := if t.id = "" then fresh else t.id } : Row) with
              search_text := some st } ] =
          some { ({ convertFhirToDb t with
                id := if t.id = "" then fresh else t.id } : Row) with
              search_text := some st } := by
        simp [List.find?]
      rw [h2]
      exact convertDbToFhir_override t (if t.id = "" then fresh else t.id)
        (some st)

/-- A complete concrete resource whose create succeeds: clinical purpose
present, one fully-populated coding, one category with text. -/
def t5 : LabTestDefinition :=
  { id := "test-1"
    name := "Blood Glucose Test"
    code := { coding := some [ ⟨ some "http://loinc.org", none,
        some "33747-0", some "Glucose", none ⟩ ], text := some "Glucose" }
    status := .active
    version := "1.0.0"
    category := [ { coding := none, text := some "chemistry" } ]
    description := "Measures blood glucose"
    clinical_purpose := some "Diabetes screening"
    observation_definition := obs0
    specimen_definition := none
    reference_ranges := none
    critical_values := none
    analytical_method := none
    precision := none
    accuracy := none
    turnaround_time := none
    cost := none
    ordering_information := none
    created_date := 1
    modified_date := 1
    created_by := none }

/-- Witness for the amended C5: `t5` carries no alias-declared nested
fields, so creating it on the empty store and reading it back by its
(kept) id returns `t5` itself. -/
theorem c5_create_then_get_amended_witness :
    t5 = { scrubAliases t5 with id := if t5.id = "" then "f1" else t5.id } ∧
    getLabTestById (createLabTest db0 t5 ("f1")).snd t5.id = some t5 :=
  c5_create_then_get_amended db0 t5 ("f1") t5 (by decide)

/-- A valid resource carrying alias-declared nested fields: its coding's
`userSelected` is set and its embedded ObservationDefinition has a
`preferredReportName`. -/
def tAliased : LabTestDefinition :=
  { t5 with
    id := "aliased-1"
    code := { coding := some [ ⟨ some "http://loinc.org", none,
                some "33747-0", some "Glucose", some true ⟩ ]
              text := some "Glucose" }
    observation_definition :=
      { obs0 with preferred_report_name := some "Glucose report" } }

/-- Counterexample to C1 as stated: the round trip succeeds on `tAliased`
but does not reproduce it — the coding's `userSelected` and the embedded
`preferredReportName` are dropped by the pydantic reconstruction, so the
mapping is not lossless on every defined field. -/
theorem c1_counterexample :
    (convertDbToFhir (convertFhirToDb tAliased)).isSome = true ∧
    convertDbToFhir (convertFhirToDb tAliased) ≠ some tAliased := by
  decide

/-- C1 (amended): the round trip through the row shape reproduces every
top-level defined field and every unaliased nested field, while the nested
alias-declared fields (each coding's `userSelected`; `permittedDataType`,
`multipleResultsAllowed`, `preferredReportName` on the embedded
ObservationDefinition; `typeCollected`, `patientPreparation`, `timeAspect`
on the embedded SpecimenDefinition) are dropped to null — the result is
exactly the alias-scrubbed input, and equals the input whenever those
fields are absent. -/
theorem c1_roundtrip_amended (t : LabTestDefinition) :
    convertDbToFhir (convertFhirToDb t) = some (scrubAliases t) ∧
    (scrubAliases t = t →
      convertDbToFhir (convertFhirToDb t) = some t) := by
  have h1 : convertDbToFhir (convertFhirToDb t) = some (scrubAliases t) := by
    simpa using convertDbToFhir_override t t.id none
  refine ⟨ h1, fun hs => ?_ ⟩
  rw [hs] at h1
  exact h1

/-- Witness for the amended C1: `t5` has no alias-declared nested fields
set, and its round trip is the identity. -/
theorem c1_roundtrip_amended_witness :
    convertDbToFhir (convertFhirToDb t5) = some t5 :=
  (c1_roundtrip_amended t5).2 (by decide)

/-- Counterexample to C5 as stated: creating `tAliased` succeeds and the
immediate get at its (kept) id returns a record, but not one equal to the
input — the alias-declared nested fields came back null. -/
theorem c5_counterexample :
    (createLabTest db0 tAliased ("f1")).fst.isSome = true ∧
    (getLabTestById (createLabTest db0 tAliased ("f1")).snd
      ("aliased-1")).isSome = true ∧
    getLabTestById (createLabTest db0 tAliased ("f1")).snd ("aliased-1") ≠
      some tAliased := by
  decide

/-- Case-insensitive substring relation (what every `LIKE '%p%'` filter of
the source actually tests under SQLite's default collation). -/
def ciSubstr (needle hay : String) : Bool :=
  containsRun (strLower needle).data (strLower hay).data

/-- Case-sensitive (plain) substring relation, the literal reading of
claim C2's category clause. -/
def plainSubstr (needle hay : String) : Bool :=
  containsRun needle.data hay.data

/-- The search predicate exactly as claim C2 words it: free text a
case-insensitive substring of the search blob; category any-of with each
supplied string a (plain) substring of the stored category list; status an
exact any-of match; code an exact match on the first coding's code. -/
def c2ClaimPred (q : Option String) (category status : Option (List String))
    (code : Option String) (r : Row) : Bool :=
  (if optStrTruthy q then
    ciSubstr (q.getD ("")) (r.search_text.getD (""))
   else true) &&
  (if optListTruthy category then
    (match r.category with
     | some cs => (category.getD []).any (fun cat =>
         plainSubstr cat (categoryJson cs))
     | none => false)
   else true) &&
  (if optListTruthy status then
    (status.getD []).any (fun s => r.status == s)
   else true) &&
  (if optStrTruthy code then
    (match firstCodingCode r with
     | some c0 => c0 == code.getD ("")
     | none => false)
   else true)

/-- Claim C2 as amended: the free-text and category clauses match iff the
LIKE pattern `%filter%` matches (ASCII-case-insensitive, with `%` and `_`
in the filter acting as wildcards) — for filters free of those
metacharacters this is exactly case-insensitive substring containment —
while the status and code clauses stay exact. -/
def c2AmendedPred (q : Option String) (category status : Option (List String))
    (code : Option String) (r : Row) : Bool :=
  (if optStrTruthy q then
    likeContains (r.search_text.getD ("")) (q.getD (""))
   else true) &&
  (if optListTruthy category then
    (match r.category with
     | some cs => (category.getD []).any (fun cat =>
         likeContains (categoryJson cs) cat)
     | none => false)
   else true) &&
  (if optListTruthy status then
    (status.getD []).any (fun s => r.status == s)
   else true) &&
  (if optStrTruthy code then
    (match firstCodingCode r with
     | some c0 => c0 == code.getD ("")
     | none => false)
   else true)

/-- A stored row whose category text carries an uppercase letter. -/
def c2row : Row :=
  { row0 with
    id := "t2"
    category := some [ { coding := none, text := some "Chemistry" } ] }

/-- A one-row dataset for the C2 counterexample. -/
def c2db : DB := { tests := [ c2row ], index := [], audit := [] }

/-- Counterexample to C2 as stated, in both LIKE-specific behaviors.
Category case: the filter `chemistry` LIKE-matches the stored text
`Chemistry` case-insensitively, so search returns the row, while the
claim's plain-substring category clause rejects it.  Wildcard: the
free-text query `n%p` LIKE-matches the search blob `n d p` through the
`%` wildcard, so search returns the row, while `n%p` is not a
case-insensitive substring of the blob — either way search does not
return exactly the records satisfying the claim's predicate. -/
theorem c2_counterexample :
    c2row ∈ (searchLabTestDefinitions c2db none (some [ "chemistry" ]) none
      none none none 10 0 ("name") ("asc")).results ∧
    c2ClaimPred none (some [ "chemistry" ]) none none c2row = false ∧
    c2row ∈ (searchLabTestDefinitions c2db (some "n%p") none none
      none none none 10 0 ("name") ("asc")).results ∧
    c2ClaimPred (some "n%p") none none none c2row = false := by
  decide

theorem rowMatches_eq_amended (q : Option String)
    (category status : Option (List String)) (code : Option String)
    (r : Row) (h : r.search_text.isSome) :
    rowMatches q category status code r =
      c2AmendedPred q category status code r := by
  rcases Option.isSome_iff_exists.mp h with ⟨ st, hst ⟩
  unfold rowMatches c2AmendedPred
  rw [hst]
  rfl

theorem insertOrdered_perm (le : Row → Row → Bool) (r : Row) (l : List Row) :
    (insertOrdered le r l).Perm (r :: l) := by
  induction l with
  | nil => exact List.Perm.refl _
  | cons x xs ih =>
    unfold insertOrdered
    split
    · exact List.Perm.refl _
    · exact (List.Perm.cons x ih).trans (List.Perm.swap r x xs)

theorem sortRows_perm (sb so : String) (rows : List Row) :
    (sortRows sb so rows).Perm rows := by
  unfold sortRows
  induction rows with
  | nil => exact List.Perm.refl _
  | cons a l ih =>
    exact (insertOrdered_perm _ a _).trans (List.Perm.cons a ih)

theorem toLower_eq_low (c m : Char) (hm : m.toNat < 97)
    (h : Char.toLower c = m) : c = m := by
  unfold Char.toLower at h
  dsimp only at h
  split at h
  · exfalso
    rename_i hc
    have hv : (Char.ofNat (c.toNat + 32)).toNat = c.toNat + 32 := by
      unfold Char.ofNat
      rw [dif_pos (by left; omega)]
      rfl
    have h2 := congrArg Char.toNat h
    rw [hv] at h2
    omega
  · exact h

theorem mem_suffixes_nil (s : List Char) :
    ([] : List Char) ∈ suffixes s := by
  induction s with
  | nil => exact List.mem_singleton.mpr rfl
  | cons a t ih => exact List.mem_cons_of_mem _ ih

theorem likeMatch_percent_nil (s : List Char) :
    likeMatch [ '%' ] s = true := by
  unfold likeMatch
  rw [if_pos rfl]
  apply List.any_eq_true.mpr
  exact ⟨ [], mem_suffixes_nil s, rfl ⟩

theorem likeMatch_wildfree (pat : List Char)
    (hw : ∀ c ∈ pat, ¬ c = '%' ∧ ¬ c = '_') (s : List Char) :
    likeMatch (pat ++ [ '%' ]) s = pat.isPrefixOf s := by
  induction pat generalizing s with
  | nil => simpa [List.isPrefixOf] using likeMatch_percent_nil s
  | cons p ps ih =>
    have hp := hw p (List.mem_cons_self _ _)
    have hw2 : ∀ c ∈ ps, ¬ c = '%' ∧ ¬ c = '_' :=
      fun c hc => hw c (List.mem_cons_of_mem _ hc)
    rw [List.cons_append]
    cases s with
    | nil =>
      simp only [likeMatch, if_neg hp.1]
      simp [List.isPrefixOf]
    | cons c t =>
      simp only [likeMatch, if_neg hp.1, if_neg hp.2]
      rw [ih hw2 t]
      simp [List.isPrefixOf]

theorem any_suffixes_isPrefixOf (p s : List Char) :
    (suffixes s).any (fun t => p.isPrefixOf t) = containsRun p s := by
  induction s with
  | nil =>
    cases p with
    | nil => rfl
    | cons a as => rfl
  | cons c t ih =>
    simp only [suffixes, containsRun, List.any_cons, ih]

/-- For a filter string free of the LIKE metacharacters `%` and `_`, the
LIKE pattern `%pat%` matches a subject iff `pat` is a case-insensitive
substring of it. -/
theorem likeContains_wildfree (s pat : String)
    (hw : pat.data.all (fun c => !(c == '%') && !(c == '_')) = true) :
    likeContains s pat = ciSubstr pat s := by
  unfold likeContains ciSubstr
  have hw1 : ∀ c ∈ pat.data, ¬ c = '%' ∧ ¬ c = '_' := by
    intro c hc
    have := List.all_eq_true.mp hw c hc
    simp only [Bool.and_eq_true, Bool.not_eq_true', beq_eq_false_iff_ne]
      at this
    exact this
  have hw2 : ∀ c ∈ (strLower pat).data, ¬ c = '%' ∧ ¬ c = '_' := by
    intro c hc
    rcases List.mem_map.mp hc with ⟨ c0, hc0, hlow ⟩
    constructor
    · intro hcp
      rw [hcp] at hlow
      exact (hw1 c0 hc0).1 (toLower_eq_low c0 ('%') (by decide) hlow)
    · intro hcp
      rw [hcp] at hlow
      exact (hw1 c0 hc0).2 (toLower_eq_low c0 ('_') (by decide) hlow)
  have hpc : Char.toLower ('%') = ('%') := by decide
  have hdata : (strLower ("%" ++ pat ++ "%")).data =
      '%' :: ((strLower pat).data ++ [ '%' ]) := by
    simp [strLower, String.data_append, hpc]
  rw [hdata]
  have hstep : likeMatch ('%' :: ((strLower pat).data ++ [ '%' ]))
      (strLower s).data =
      ((suffixes (strLower s).data).any
        (fun t => ((strLower pat).data).isPrefixOf t)) := by
    unfold likeMatch
    rw [if_pos rfl]
    congr 1
    funext t
    exact likeMatch_wildfree _ hw2 t
  rw [hstep]
  exact any_suffixes_isPrefixOf _ _

/-- C2 (amended): over any dataset whose rows carry a search blob, a search
page large enough to hold everything returns exactly the rows satisfying
the AND of the supplied filters, with the free-text and category clauses
read as LIKE patterns (ASCII-case-insensitive, `%`/`_` wildcards) — which
for metacharacter-free filters is exactly case-insensitive substring
containment — and the total is the number of matching rows. -/
theorem c2_amended_search (db : DB) (q : Option String)
    (category status specimen_type : Option (List String))
    (code_system code : Option String) (sort_by sort_order : String)
    (hwf : ∀ r ∈ db.tests, r.search_text.isSome) :
    (searchLabTestDefinitions db q category status specimen_type code_system
      code db.tests.length 0 sort_by sort_order).results.Perm
      (db.tests.filter (c2AmendedPred q category status code)) ∧
    (searchLabTestDefinitions db q category status specimen_type code_system
      code db.tests.length 0 sort_by sort_order).total =
      (db.tests.filter (c2AmendedPred q category status code)).length ∧
    (∀ pat s : String,
      pat.data.all (fun c => !(c == '%') && !(c == '_')) = true →
      likeContains s pat = ciSubstr pat s) := by
  have hfilter : db.tests.filter (rowMatches q category status code) =
      db.tests.filter (c2AmendedPred q category status code) :=
    List.filter_congr (fun r hr =>
      rowMatches_eq_amended q category status code r (hwf r hr))
  refine ⟨ ?_, ?_, fun pat s hw => likeContains_wildfree s pat hw ⟩
  · simp only [searchLabTestDefinitions, List.drop_zero]
    rw [hfilter]
    rw [List.take_of_length_le]
    · exact sortRows_perm _ _ _
    · calc (sortRows sort_by sort_order
            (db.tests.filter (c2AmendedPred q category status code))).length
          = (db.tests.filter (c2AmendedPred q category status code)).length :=
            (sortRows_perm _ _ _).length_eq
        _ ≤ db.tests.length := List.length_filter_le _ _
  · simp only [searchLabTestDefinitions]
    rw [hfilter]

/-- Witness for the amended C2 at a concrete dataset and an uppercase
category filter. -/
theorem c2_amended_search_witness :
    (searchLabTestDefinitions c2db none (some [ "CHEMISTRY" ]) none none
      none none c2db.tests.length 0 ("name") ("asc")).results.Perm
      (c2db.tests.filter (c2AmendedPred none (some [ "CHEMISTRY" ]) none
        none)) ∧
    (searchLabTestDefinitions c2db none (some [ "CHEMISTRY" ]) none none
      none none c2db.tests.length 0 ("name") ("asc")).total =
      (c2db.tests.filter (c2AmendedPred none (some [ "CHEMISTRY" ]) none
        none)).length ∧
    likeContains ("n d p") ("n d") = ciSubstr ("n d") ("n d p") :=
  ⟨ (c2_amended_search c2db none (some [ "CHEMISTRY" ]) none none none none
      ("name") ("asc") (by decide)).1,
    (c2_amended_search c2db none (some [ "CHEMISTRY" ]) none none none none
      ("name") ("asc") (by decide)).2.1,
    (c2_amended_search c2db none (some [ "CHEMISTRY" ]) none none none none
      ("name") ("asc") (by decide)).2.2 ("n d") ("n d p") (by decide) ⟩

/-- A resource whose client-supplied modified date precedes its created
date. -/
def c8bad : LabTestDefinition :=
  { t5 with
    id := "bad-1"
    created_date := 5
    modified_date := 3 }

/-- Counterexample to C8 as stated: create stores client-supplied
timestamps as-is, so a successfully created record can violate
modified_date ≥ created_date — the store does not enforce the invariant. -/
theorem c8_counterexample :
    ((createLabTest db0 c8bad ("f1")).fst.isSome = true) ∧
    ((createLabTest db0 c8bad ("f1")).snd.tests.all
      (fun r => decide (r.created_date ≤ r.modified_date)) = false) := by
  decide

theorem find?_replace (l : List Row) (tid : String) (nw : Row)
    (hnw : nw.id = tid)
    (h : (l.find? (fun r => r.id == tid)).isSome) :
    (l.map (fun r => if r.id == tid then nw else r)).find?
      (fun r => r.id == tid) = some nw := by
  induction l with
  | nil => simp at h
  | cons a as ih =>
    by_cases ha : (a.id == tid) = true
    · rw [List.map_cons, if_pos ha, List.find?_cons]
      simp [hnw]
    · have ha2 : (a.id == tid) = false := by
        rwa [Bool.not_eq_true] at ha
      have h2 : (as.find? (fun r => r.id == tid)).isSome := by
        rw [List.find?_cons] at h
        simpa [ha2] using h
      rw [List.map_cons, if_neg ha, List.find?_cons]
      simp only [ha2]
      exact ih h2

/-- C8 (amended): every successful update stamps the modified date to the
update time and passes the payload's created date through, the refetch by
id returns exactly the stored updated row, and whenever the payload's
created date precedes the update time the stored record satisfies
modified_date strictly greater than created_date.  (The invariant itself
is not enforced for client-supplied timestamps: see the counterexample.) -/
theorem c8_amended_update (db : DB) (test_id : String) (row : Row)
    (now : Nat) (res : Row) (hid : row.id = test_id)
    (h : (updateLabTestDefinition db test_id row now).fst
      = some (some res)) :
    res.modified_date = now ∧
    res.created_date = row.created_date ∧
    getLabTestDefinition (updateLabTestDefinition db test_id row now).snd
      test_id = some res ∧
    (row.created_date < now → res.created_date < res.modified_date) := by
  cases hm : getLabTestDefinition db test_id with
  | none => simp [updateLabTestDefinition, hm] at h
  | some ex =>
    cases hg : generateSearchText { row with modified_date := now } with
    | none => simp [updateLabTestDefinition, hm, hg] at h
    | some st =>
      cases hb : buildIndexEntries test_id
          { row with modified_date := now, search_text := some st } with
      | none =>
        simp [updateLabTestDefinition, updateSearchIndex, hm, hg, hb] at h
      | some es =>
        have hm2 : db.tests.find? (fun r => r.id == test_id) = some ex := hm
        have hfound : (db.tests.map (fun r => if r.id == test_id then
            { row with modified_date := now, search_text := some st }
            else r)).find? (fun r => r.id == test_id) =
            some { row with modified_date := now, search_text := some st } :=
          find?_replace db.tests test_id _ hid (by simp [hm2])
        simp only [updateLabTestDefinition, updateSearchIndex, hm, hg, hb]
          at h
        unfold getLabTestDefinition at h
        dsimp only at h
        rw [hfound] at h
        have hres : ({ row with modified_date := now, search_text := some st } : Row) = res :=
          Option.some_inj.mp (Option.some_inj.mp h)
        subst hres
        refine ⟨ rfl, rfl, ?_, ?_ ⟩
        · simp only [updateLabTestDefinition, updateSearchIndex, hm, hg, hb]
          unfold getLabTestDefinition
          dsimp only
          exact hfound
        · intro hlt
          exact hlt

/-- The stored row targeted by the C8 witness update. -/
def c8up : Row :=
  { row0 with
    description := "d2"
    created_date := 5
    modified_date := 1 }

/-- A one-row store for the C8 witness. -/
def c8db : DB := { tests := [ row0 ], index := [], audit := [] }

/-- The row the C8 witness update stores. -/
def c8res : Row :=
  { c8up with
    modified_date := 10
    search_text := some "n d2 p" }

/-- Witness for the amended C8: a concrete update at time 10 of a payload
created at time 5 stamps modified_date to 10, strictly above
created_date. -/
theorem c8_amended_update_witness :
    c8res.modified_date = 10 ∧ c8res.created_date < c8res.modified_date :=
  ⟨ (c8_amended_update c8db ("t1") c8up 10 c8res rfl (by decide)).1,
    (c8_amended_update c8db ("t1") c8up 10 c8res rfl (by decide)).2.2.2
      (by decide) ⟩

end FHIRLab
